import Mathlib

/-!
Verification of the cavalry-vs-infantry RL environment
(`cav_vs_inf_env.py`) against its design document.

The environment is embedded shallowly:

* engine snapshots (`state.data`) become `GameState` values: a list of
  per-player status strings and a list of units (owner, 2D position,
  health as returned by `unit.health(True)`);
* Python floats are modelled as exact rationals (`ℚ`); values that are
  genuinely irrational in the source (Euclidean norms, `cos`/`sin`)
  live in `ℝ`; the IEEE value NaN, which arises from `np.mean` of an
  empty array and then propagates, is modelled by `Option` with `none`
  as the NaN marker;
* the engine itself is external: `reset`/`step` take the engine
  response snapshot as an explicit argument.
-/

/-- A unit as seen through the engine snapshot: `unit.owner()`
(0 = world, 1 = agent, 2 = opponent), `unit.position()` (2D) and the
health value `unit.health(True)`. -/
structure GameUnit where
  owner : ℕ
  posX : ℚ
  posZ : ℚ
  health : ℚ
deriving DecidableEq

/-- An engine snapshot: `state.data` restricted to the fields the
environment reads, namely `players[i].state` and the unit collection. -/
structure GameState where
  players : List String
  units : List GameUnit
deriving DecidableEq

/-- `state.units(owner=o)`. -/
def GameState.unitsOwner (s : GameState) (o : ℕ) : List GameUnit :=
  s.units.filter (fun u => u.owner = o)

/-- Placeholder status for an out-of-range player index (a Python
`IndexError`); the claims only use well-formed snapshots with at least
three player entries. -/
def missingPlayer : String := ""

/-- `BaseZeroADEnv.get_player_state`: the status string of player
`index` in the snapshot player array. -/
def get_player_state (s : GameState) (i : ℕ) : String :=
  s.players.getD i missingPlayer

/-- `BaseZeroADEnv.reward`: terminal win/loss reward. The `prev_state`
parameter is ignored by the source, as here. -/
def base_reward (prevState s : GameState) : ℤ :=
  if get_player_state s 1 = "defeated" then -1
  else if get_player_state s 2 = "defeated" then 1
  else 0

/-- `MinimapCavVsInfEnv.player_unit_health`: sum of `unit.health(True)`
over `state.units(owner=owner)`. -/
def player_unit_health (s : GameState) (o : ℕ) : ℚ :=
  ((s.unitsOwner o).map (fun u => u.health)).sum

/-- The `enemy_damage` local of `MinimapCavVsInfEnv.damage_diff`. -/
def enemy_damage (prevState s : GameState) : ℚ :=
  player_unit_health prevState 2 - player_unit_health s 2

/-- The `player_damage` local of `MinimapCavVsInfEnv.damage_diff`. -/
def player_damage (prevState s : GameState) : ℚ :=
  player_unit_health prevState 1 - player_unit_health s 1

/-- Truthiness of a two-element Python tuple: always `true`. The source
writes `assert(cond, msg)`, which asserts the tuple `(cond, msg)`
rather than `cond`; a nonempty tuple is truthy, so the condition is
never even consulted. -/
def pyTupleTruthy (cond : Bool) (msg : String) : Bool := true

/-- A Python `assert` of an already-evaluated truthiness value. -/
def pyAssert (b : Bool) : Except String Unit :=
  if b then Except.ok () else Except.error ("AssertionError")

/-- `MinimapCavVsInfEnv.damage_diff`, with the two `assert` statements
embedded exactly as written (asserting tuple truthiness). -/
def damage_diff (cf : ℚ) (prevState s : GameState) : Except String ℚ := do
  let enemyDamage := player_unit_health prevState 2 - player_unit_health s 2
  let _ ← pyAssert (pyTupleTruthy (decide (0 ≤ enemyDamage)) ("Enemy damage is negative"))
  let playerDamage := player_unit_health prevState 1 - player_unit_health s 1
  let _ ← pyAssert (pyTupleTruthy (decide (0 ≤ playerDamage)) ("Player damage is negative"))
  pure (enemyDamage - cf * playerDamage)

/-- The value `MinimapCavVsInfEnv.damage_diff` returns (it never
raises; see `damage_diff_never_raises`). -/
def damage_diff_val (cf : ℚ) (prevState s : GameState) : ℚ :=
  enemy_damage prevState s - cf * player_damage prevState s

/-- `MinimapCavVsInfEnv.reward`: `damage_diff(prev, cur) - 0.0001`. -/
def reward_shaped (cf : ℚ) (prevState s : GameState) : ℚ :=
  damage_diff_val cf prevState s - 1/10000

/-- Modelled from the spec wording of the damage-shaping policy, for
comparison with `reward_shaped`: each health-loss term clamped as
`max(0, previous_total_health - current_total_health)`. -/
def reward_shaped_specFormula (cf : ℚ) (prevState s : GameState) : ℚ :=
  max 0 (player_unit_health prevState 2 - player_unit_health s 2)
    - cf * max 0 (player_unit_health prevState 1 - player_unit_health s 1) - 1/10000

/-- The curriculum state of `MinimapCavVsInfEnv`: `self.level` and
`self.caution_factor`. -/
structure Curriculum where
  level : ℤ
  caution_factor : ℚ
deriving DecidableEq

/-- `MinimapCavVsInfEnv.__init__`: the level comes from the config
(default 1) and the caution factor starts at 10. -/
def initCurriculum (configLevel : ℤ) : Curriculum :=
  ⟨configLevel, 10⟩

/-- `MinimapCavVsInfEnv.max_reward`: `min(self.level, 7)`. -/
def Curriculum.max_reward (c : Curriculum) : ℚ :=
  ((min c.level 7 : ℤ) : ℚ)

/-- `MinimapCavVsInfEnv.min_reward`: `-self.caution_factor * 5`. -/
def Curriculum.min_reward (c : Curriculum) : ℚ :=
  -c.caution_factor * 5

/-- `MinimapCavVsInfEnv.on_train_result`. -/
def Curriculum.on_train_result (c : Curriculum) (meanReward : ℚ) : Curriculum :=
  let maxReward := c.max_reward
  let minReward := c.min_reward
  let rewardToAdvance := minReward + (85/100) * (maxReward - minReward)
  if rewardToAdvance < meanReward then
    let newLevel := c.level + 1
    ⟨newLevel, if 5 < newLevel then 5 else c.caution_factor⟩
  else c

/-- A sequence of `on_train_result` calls made by the external trainer. -/
def Curriculum.run (c : Curriculum) (ms : List ℚ) : Curriculum :=
  ms.foldl Curriculum.on_train_result c

/-- Invariant tying the caution factor to the level history, for a
curriculum started at configured level `L0`. -/
def cautionInv (L0 : ℤ) (c : Curriculum) : Prop :=
  L0 ≤ c.level ∧ c.caution_factor = if L0 < c.level ∧ 5 < c.level then 5 else 10

/-- The mutable episode state of `BaseZeroADEnv`: `self.prev_state`,
`self.state`, `self.cum_reward`. -/
structure EnvState where
  prev_state : GameState
  state : GameState
  cum_reward : ℚ
deriving DecidableEq

/-- `BaseZeroADEnv.reset`: `s0` is the engine response to
`game.reset(...)` and `s1` the response to the reveal-map step.
`cum_reward` is not touched by the source. -/
def resetEnv (e : EnvState) (s0 s1 : GameState) : EnvState :=
  ⟨s0, s1, e.cum_reward⟩

/-- `BaseZeroADEnv.step`: `s1` is the snapshot after the action tick
and the 7 idle ticks. Returns the new environment state together with
the step reward and the `done` flag (the observation is computed by
the encoders below). -/
def stepEnv (rewardFn : GameState → GameState → ℚ) (e : EnvState) (s1 : GameState) :
    EnvState × ℚ × Bool :=
  let prevS := e.state
  let done := s1.players.any (fun p => p != "active")
  let r := rewardFn prevS s1
  let cum := e.cum_reward + r
  ⟨⟨prevS, s1, if done then 0 else cum⟩, r, done⟩

/-- The rational mean position of a nonempty unit group
(`np.mean(positions, axis=0)`). -/
def centroidQ (l : List GameUnit) : ℚ × ℚ :=
  (((l.map (fun u => u.posX)).sum) / (l.length : ℚ),
   ((l.map (fun u => u.posZ)).sum) / (l.length : ℚ))

/-- `CavalryVsInfantryEnv.center`: `np.mean` of an empty array is NaN,
marked here by `none`. -/
def center (l : List GameUnit) : Option (ℚ × ℚ) :=
  if l = [] then none else some (centroidQ l)

/-- `CavalryVsInfantryEnv.enemy_offset`; `none` marks a NaN vector
(one of the two centroids undefined). -/
def enemy_offset (s : GameState) : Option (ℚ × ℚ) :=
  match center (s.unitsOwner 2), center (s.unitsOwner 1) with
  | some ce, some cp => some (ce.1 - cp.1, ce.2 - cp.2)
  | _, _ => none

/-- `CavalryVsInfantryEnv.observation`: `min(dist/80, 1)` with the
`isnan` fallback to `1.0`; `dist/80` is NaN exactly when the offset is
NaN, i.e. when one side has no units. -/
noncomputable def scalarObservation (s : GameState) : ℝ :=
  match enemy_offset s with
  | none => 1
  | some off => min (Real.sqrt ((off.1 : ℝ) ^ 2 + (off.2 : ℝ) ^ 2) / 80) 1

/-- Python `int()`: truncation toward zero. -/
def pyInt (q : ℚ) : ℤ :=
  if 0 ≤ q then ⌊q⌋ else ⌈q⌉

/-- One iteration of the unit loop in
`SimpleMinimapCavVsInfEnv.observation`: if the unit position is
strictly inside the window, set `obs[int(pos0-min_x)][int(pos1-min_z)][owner]`
to `1`, else leave the grid unchanged. -/
def gridStep (minX maxX minZ maxZ : ℚ) (g : ℤ → ℤ → ℕ → ℚ) (u : GameUnit) :
    ℤ → ℤ → ℕ → ℚ :=
  if minX < u.posX ∧ u.posX < maxX ∧ minZ < u.posZ ∧ u.posZ < maxZ then
    fun x z ch =>
      if x = pyInt (u.posX - minX) ∧ z = pyInt (u.posZ - minZ) ∧ ch = u.owner then 1
      else g x z ch
  else g

/-- `SimpleMinimapCavVsInfEnv.observation`: the 84x84x3 occupancy grid,
modelled as the cell-lookup function produced by the write loop; cells
are addressed by the integer indices the source computes. When the
agent has no units the `len(my_units) > 0` guard keeps the grid at its
all-zero initialisation. -/
def observationGrid (s : GameState) : ℤ → ℤ → ℕ → ℚ :=
  match center (s.unitsOwner 1) with
  | none => fun _ _ _ => 0
  | some c =>
      s.units.foldl (gridStep (c.1 - 42) (c.1 + 42) (c.2 - 42) (c.2 + 42))
        (fun _ _ _ => 0)

/-- The condition under which a unit writes a `1` into cell
`(x, z, ch)` during the grid loop. -/
def writesCell (minX maxX minZ maxZ : ℚ) (u : GameUnit) (x z : ℤ) (ch : ℕ) : Prop :=
  (minX < u.posX ∧ u.posX < maxX ∧ minZ < u.posZ ∧ u.posZ < maxZ) ∧
    x = pyInt (u.posX - minX) ∧ z = pyInt (u.posZ - minZ) ∧ ch = u.owner

instance writesCellDecidable (minX maxX minZ maxZ : ℚ) (u : GameUnit) (x z : ℤ) (ch : ℕ) :
    Decidable (writesCell minX maxX minZ maxZ u x z ch) := by
  unfold writesCell
  infer_instance

/-- A command handed to the engine, as built by the action resolvers.
Coordinates of a `walk` command are `Option ℝ` with `none` as the NaN
marker (a NaN centroid component propagates through the arithmetic). -/
inductive GameCommand where
  | walk (units : List GameUnit) (x z : Option ℝ)
  | attack (units : List GameUnit) (target : GameUnit)

/-- `MinimapCavVsInfEnv.move` (the default `distance=15` is never
overridden by a caller): destination is centroid plus
`15 * (cos angle, sin angle)`; with no agent units the centroid is NaN
and both coordinates come out NaN. -/
noncomputable def moveCmd (s : GameState) (angle : ℝ) : GameCommand :=
  GameCommand.walk (s.unitsOwner 1)
    ((center (s.unitsOwner 1)).map (fun c => (c.1 : ℝ) + 15 * Real.cos angle))
    ((center (s.unitsOwner 1)).map (fun c => (c.2 : ℝ) + 15 * Real.sin angle))

/-- Squared Euclidean distance from a unit to a point. -/
def distSqTo (c : ℚ × ℚ) (u : GameUnit) : ℚ :=
  (u.posX - c.1) ^ 2 + (u.posZ - c.2) ^ 2

/-- First-minimum scan, as `np.argmin` resolves ties. -/
def argminFirst (f : GameUnit → ℚ) : GameUnit → List GameUnit → GameUnit
  | b, [] => b
  | b, u :: us => if f u < f b then argminFirst f u us else argminFirst f b us

/-- `CavalryVsInfantryEnv.attack`: attack the opponent unit closest to
the agent centroid. `np.argmin` over an empty distance array raises
(`none`); over an all-NaN array (agent centroid undefined) it returns
index 0, hence the first opponent unit. Minimising the true norm is
the same as minimising the squared distance, which stays rational. -/
def attackCmd (s : GameState) : Option GameCommand :=
  match s.unitsOwner 2, center (s.unitsOwner 1) with
  | [], _ => none
  | e :: _, none => some (GameCommand.attack (s.unitsOwner 1) e)
  | e :: es, some c => some (GameCommand.attack (s.unitsOwner 1) (argminFirst (distSqTo c) e es))

/-- `MinimapCavVsInfEnv.resolve_action`: index 8 attacks, indices 0-7
move towards heading `2 * pi * i / 8`. -/
noncomputable def resolve_action (s : GameState) (i : ℕ) : Option GameCommand :=
  if i = 8 then attackCmd s
  else some (moveCmd s (2 * Real.pi * (i : ℝ) / 8))

/-- Snapshot: three active players, one opponent unit with health 10. -/
def exUnitsA : GameState :=
  ⟨["active", "active", "active"], [⟨2, 0, 0, 10⟩]⟩

/-- Snapshot: the opponent unit healed to 20 (negative damage). -/
def exUnitsB : GameState :=
  ⟨["active", "active", "active"], [⟨2, 0, 0, 20⟩]⟩

/-- Snapshot: the opponent unit dropped to health 5. -/
def exUnitsC : GameState :=
  ⟨["active", "active", "active"], [⟨2, 0, 0, 5⟩]⟩

/-- Snapshot in which both contestants are defeated. -/
def exBothDefeated : GameState :=
  ⟨["active", "defeated", "defeated"], []⟩

/-- Snapshot in which the agent is defeated, ending the episode. -/
def exDone : GameState :=
  ⟨["active", "defeated", "active"], []⟩

/-- Snapshot with no agent units and one opponent unit. -/
def exNoAgent : GameState :=
  ⟨["active", "active", "active"], [⟨2, 3, 4, 10⟩]⟩

/-- Snapshot with one agent unit at the origin and one opponent unit
at `(6, 8)`, i.e. centroid distance 10. -/
def exTwoSides : GameState :=
  ⟨["active", "active", "active"], [⟨1, 0, 0, 50⟩, ⟨2, 6, 8, 10⟩]⟩

/-- Snapshot for the occupancy grid: agent unit at `(50, 50)`, an
opponent unit at `(60, 55)` inside the window. -/
def exGridState : GameState :=
  ⟨["active", "active", "active"], [⟨1, 50, 50, 50⟩, ⟨2, 60, 55, 10⟩]⟩

/-- Environment state at the start of an episode on `exUnitsA`. -/
def exEnv0 : EnvState :=
  ⟨exUnitsA, exUnitsA, 0⟩

/-- Environment state after one shaped step that dealt 5 damage
without the episode ending. -/
def exEnv1 : EnvState :=
  (stepEnv (reward_shaped 10) exEnv0 exUnitsC).1

/-- The tuple-assert convention makes `damage_diff` total: it always
returns `Except.ok` of the raw signed difference. -/
lemma damage_diff_never_raises (cf : ℚ) (prevState s : GameState) :
    damage_diff cf prevState s = Except.ok (damage_diff_val cf prevState s) := rfl

/-- Claim C1 (corrected part): on a pair where the opponent healed,
the implemented reward differs from the clamped formula of the claim:
the signed difference `-10` enters the reward unclamped. -/
theorem c1_counterexample :
    reward_shaped 10 exUnitsA exUnitsB ≠ reward_shaped_specFormula 10 exUnitsA exUnitsB := by
  norm_num [reward_shaped, reward_shaped_specFormula, damage_diff_val, enemy_damage,
    player_damage, player_unit_health, GameState.unitsOwner, exUnitsA, exUnitsB]

/-- Claim C1 (amended): under the damage-shaping policy the step
reward is the signed health difference of the opponent side minus
`caution_factor` times the signed health difference of the agent side,
minus `0.0001`, with no clamping; whenever both differences are
non-negative this agrees with the `max(0, _)` formula of the claim. -/
theorem c1_shaped_reward (cf : ℚ) (prevState s : GameState) :
    reward_shaped cf prevState s
      = (player_unit_health prevState 2 - player_unit_health s 2)
        - cf * (player_unit_health prevState 1 - player_unit_health s 1) - 1/10000
  ∧ (0 ≤ enemy_damage prevState s → 0 ≤ player_damage prevState s →
      reward_shaped cf prevState s = reward_shaped_specFormula cf prevState s) := by
  constructor
  · rfl
  · intro h1 h2
    unfold enemy_damage at h1
    unfold player_damage at h2
    unfold reward_shaped damage_diff_val enemy_damage player_damage reward_shaped_specFormula
    rw [max_eq_right h1, max_eq_right h2]

/-- Witness for C1: a pair with non-negative damages on which the code
reward and the clamped formula agree. -/
theorem c1_witness :
    reward_shaped 10 exUnitsA exUnitsC = reward_shaped_specFormula 10 exUnitsA exUnitsC :=
  (c1_shaped_reward 10 exUnitsA exUnitsC).2
    (by norm_num [enemy_damage, player_unit_health, GameState.unitsOwner, exUnitsA, exUnitsC])
    (by norm_num [player_damage, player_unit_health, GameState.unitsOwner, exUnitsA, exUnitsC])

/-- Claim C2 (corrected part): in a snapshot where both contestants
are defeated, the opponent is defeated yet the reward is not `+1` (the
agent branch wins), refuting the claimed biconditional. -/
theorem c2_counterexample :
    get_player_state exBothDefeated 2 = "defeated"
  ∧ base_reward exBothDefeated exBothDefeated ≠ 1 := by
  constructor
  · rfl
  · norm_num [base_reward, get_player_state, missingPlayer, exBothDefeated]

/-- Claim C2 (amended): the terminal reward is in `{-1, 0, 1}`; it is
`-1` iff the agent is defeated in the current state, `+1` iff the
opponent is defeated and the agent is not (the agent check has
priority), `0` iff neither is defeated; and it does not depend on the
previous state. -/
theorem c2_terminal_reward (prevState prevState2 s : GameState) :
    (base_reward prevState s = -1 ∨ base_reward prevState s = 0 ∨ base_reward prevState s = 1)
  ∧ (base_reward prevState s = -1 ↔ get_player_state s 1 = "defeated")
  ∧ (base_reward prevState s = 1 ↔
      (get_player_state s 2 = "defeated" ∧ ¬ get_player_state s 1 = "defeated"))
  ∧ (base_reward prevState s = 0 ↔
      (¬ get_player_state s 1 = "defeated" ∧ ¬ get_player_state s 2 = "defeated"))
  ∧ base_reward prevState s = base_reward prevState2 s := by
  unfold base_reward
  by_cases h1 : get_player_state s 1 = "defeated" <;>
    by_cases h2 : get_player_state s 2 = "defeated" <;>
      simp [h1, h2]

/-- Claim C3 (corrected part): after a mid-episode shaped step with
nonzero reward, a `reset()` call leaves the cumulative reward nonzero:
`reset` does not zero the accumulator. -/
theorem c3_counterexample :
    (resetEnv exEnv1 exUnitsA exUnitsA).cum_reward ≠ 0 := by
  norm_num [resetEnv, exEnv1, exEnv0, stepEnv, reward_shaped, damage_diff_val,
    enemy_damage, player_damage, player_unit_health, GameState.unitsOwner,
    exUnitsA, exUnitsC]

/-- Claim C3 (amended): `reset()` leaves the cumulative reward
unchanged; the accumulator is zeroed inside `step()` exactly when the
step reports `done`, and otherwise a step adds the step reward, so the
accumulator is zero at the start of an episode only when the previous
episode ran to completion (or none was started, the constructor
initialising it to zero). -/
theorem c3_cum_reward_lifecycle (e : EnvState) (s0 s1 : GameState)
    (rewardFn : GameState → GameState → ℚ) (s2 : GameState) :
    (resetEnv e s0 s1).cum_reward = e.cum_reward
  ∧ ((stepEnv rewardFn e s2).2.2 = true → (stepEnv rewardFn e s2).1.cum_reward = 0)
  ∧ ((stepEnv rewardFn e s2).2.2 = false →
      (stepEnv rewardFn e s2).1.cum_reward = e.cum_reward + rewardFn e.state s2) := by
  refine ⟨rfl, ?_, ?_⟩ <;> unfold stepEnv <;> intro h <;> simp_all

/-- Witness for C3 (amended): a completing step zeroes the
accumulator, a non-completing step accumulates. -/
theorem c3_witness :
    (stepEnv (reward_shaped 10) exEnv1 exDone).1.cum_reward = 0
  ∧ (stepEnv (reward_shaped 10) exEnv0 exUnitsC).1.cum_reward
      = exEnv0.cum_reward + reward_shaped 10 exEnv0.state exUnitsC :=
  ⟨(c3_cum_reward_lifecycle exEnv1 exUnitsA exUnitsA (reward_shaped 10) exDone).2.1 rfl,
   (c3_cum_reward_lifecycle exEnv0 exUnitsA exUnitsA (reward_shaped 10) exUnitsC).2.2 rfl⟩

/-- Claim C4: the advancement hook uses
`min_reward = -caution_factor * 5` and `max_reward = min(level, 7)`,
the level increments by exactly one iff the mean reward strictly
exceeds `min_reward + 0.85 * (max_reward - min_reward)`, and the level
never decreases. -/
theorem c4_curriculum_advance (c : Curriculum) (m : ℚ) :
    c.min_reward = -c.caution_factor * 5
  ∧ c.max_reward = ((min c.level 7 : ℤ) : ℚ)
  ∧ ((c.on_train_result m).level = c.level + 1 ↔
      c.min_reward + (85/100) * (c.max_reward - c.min_reward) < m)
  ∧ c.level ≤ (c.on_train_result m).level := by
  have hcases : (c.on_train_result m).level
      = if c.min_reward + (85/100) * (c.max_reward - c.min_reward) < m
        then c.level + 1 else c.level := by
    simp only [Curriculum.on_train_result]
    split <;> rfl
  refine ⟨rfl, rfl, ?_, ?_⟩ <;> rw [hcases]
  · by_cases h : c.min_reward + (85/100) * (c.max_reward - c.min_reward) < m
    · rw [if_pos h]
      simp [h]
    · rw [if_neg h]
      simp [h]
  · split <;> omega

/-- Claim C5: the negative-damage assertions in `damage_diff` assert a
two-element tuple, which is always truthy, so they never fire: on a
pair where the opponent healed (negative enemy damage) the computation
still returns the signed value with no error, and in general
`damage_diff` never raises. -/
theorem c5_assertion_never_fires :
    enemy_damage exUnitsA exUnitsB < 0
  ∧ (∀ cf prevState s, damage_diff cf prevState s
        = Except.ok (damage_diff_val cf prevState s)) :=
  ⟨by norm_num [enemy_damage, player_unit_health, GameState.unitsOwner, exUnitsA, exUnitsB],
   fun _ _ _ => rfl⟩

/-- Claim C10: for every curriculum state with level at least 1 and
caution factor 10 or 5, `max_reward - min_reward` is at least 26,
hence strictly positive, so the reward-ratio denominator at episode
completion is never zero. -/
theorem c10_reward_range_positive (c : Curriculum) (h1 : 1 ≤ c.level)
    (h2 : c.caution_factor = 10 ∨ c.caution_factor = 5) :
    26 ≤ c.max_reward - c.min_reward ∧ 0 < c.max_reward - c.min_reward := by
  have hmin : (1 : ℤ) ≤ min c.level 7 := le_min h1 (by norm_num)
  have hq : (1 : ℚ) ≤ ((min c.level 7 : ℤ) : ℚ) := by exact_mod_cast hmin
  unfold Curriculum.max_reward Curriculum.min_reward
  rcases h2 with h | h <;> rw [h] <;> constructor <;> linarith

/-- Witness for C10 at the initial curriculum state. -/
theorem c10_witness :
    26 ≤ (initCurriculum 1).max_reward - (initCurriculum 1).min_reward
  ∧ 0 < (initCurriculum 1).max_reward - (initCurriculum 1).min_reward :=
  c10_reward_range_positive (initCurriculum 1) (le_refl 1) (Or.inl rfl)

/-- The level after one advancement check, as an if-expression. -/
lemma on_train_result_level (c : Curriculum) (m : ℚ) :
    (c.on_train_result m).level
      = if c.min_reward + (85/100) * (c.max_reward - c.min_reward) < m
        then c.level + 1 else c.level := by
  simp only [Curriculum.on_train_result]
  split <;> rfl

/-- The caution factor after one advancement check, as an
if-expression. -/
lemma on_train_result_caution (c : Curriculum) (m : ℚ) :
    (c.on_train_result m).caution_factor
      = if c.min_reward + (85/100) * (c.max_reward - c.min_reward) < m
        then (if 5 < c.level + 1 then 5 else c.caution_factor)
        else c.caution_factor := by
  simp only [Curriculum.on_train_result]
  split <;> rfl

/-- A single advancement check never decreases the level. -/
lemma on_train_result_level_mono (c : Curriculum) (m : ℚ) :
    c.level ≤ (c.on_train_result m).level := by
  rw [on_train_result_level]
  split <;> omega

lemma cautionInv_init (L0 : ℤ) : cautionInv L0 (initCurriculum L0) := by
  refine ⟨le_refl _, ?_⟩
  rw [if_neg]
  · rfl
  · simp [initCurriculum]

lemma cautionInv_step (L0 : ℤ) (c : Curriculum) (m : ℚ) (h : cautionInv L0 c) :
    cautionInv L0 (c.on_train_result m) := by
  obtain ⟨hle, hcf⟩ := h
  refine ⟨le_trans hle (on_train_result_level_mono c m), ?_⟩
  rw [on_train_result_caution, on_train_result_level]
  by_cases hadv : c.min_reward + (85/100) * (c.max_reward - c.min_reward) < m
  · simp only [if_pos hadv]
    by_cases h5 : 5 < c.level + 1
    · simp only [if_pos h5]
      rw [if_pos ⟨by omega, h5⟩]
    · simp only [if_neg h5]
      rw [hcf, if_neg (by omega : ¬(L0 < c.level ∧ 5 < c.level)),
        if_neg (by omega : ¬(L0 < c.level + 1 ∧ 5 < c.level + 1))]
  · simp only [if_neg hadv]
    exact hcf

lemma cautionInv_run (L0 : ℤ) (ms : List ℚ) (c : Curriculum) (h : cautionInv L0 c) :
    cautionInv L0 (c.run ms) := by
  induction ms generalizing c with
  | nil => exact h
  | cons m rest ih => exact ih _ (cautionInv_step L0 c m h)

lemma run_level_mono (ms : List ℚ) (c : Curriculum) : c.level ≤ (c.run ms).level := by
  induction ms generalizing c with
  | nil => exact le_refl _
  | cons m rest ih => exact le_trans (on_train_result_level_mono c m) (ih _)

lemma run_append (c : Curriculum) (ms1 ms2 : List ℚ) :
    c.run (ms1 ++ ms2) = (c.run ms1).run ms2 := by
  simp [Curriculum.run]

lemma scalarObservation_of_none (s : GameState) (h : enemy_offset s = none) :
    scalarObservation s = 1 := by
  unfold scalarObservation
  rw [h]

lemma scalarObservation_of_some (s : GameState) (off : ℚ × ℚ)
    (h : enemy_offset s = some off) :
    scalarObservation s = min (Real.sqrt ((off.1 : ℝ) ^ 2 + (off.2 : ℝ) ^ 2) / 80) 1 := by
  unfold scalarObservation
  rw [h]

lemma enemy_offset_of_nonempty (s : GameState) (h1 : s.unitsOwner 1 ≠ [])
    (h2 : s.unitsOwner 2 ≠ []) :
    enemy_offset s
      = some ((centroidQ (s.unitsOwner 2)).1 - (centroidQ (s.unitsOwner 1)).1,
          (centroidQ (s.unitsOwner 2)).2 - (centroidQ (s.unitsOwner 1)).2) := by
  unfold enemy_offset center
  rw [if_neg h2, if_neg h1]

lemma enemy_offset_of_empty (s : GameState)
    (h : s.unitsOwner 1 = [] ∨ s.unitsOwner 2 = []) :
    enemy_offset s = none := by
  rcases h with h | h
  · have hp : center (s.unitsOwner 1) = none := by
      rw [h]
      rfl
    unfold enemy_offset
    rw [hp]
    cases center (s.unitsOwner 2) <;> rfl
  · have he : center (s.unitsOwner 2) = none := by
      rw [h]
      rfl
    unfold enemy_offset
    rw [he]

/-- Claim C6: the scalar-distance observation always lies in `[0, 1]`;
when both sides have at least one unit it equals
`min(1, dist/80)` with `dist` the Euclidean distance between the two
centroids; when at least one side is empty it equals exactly `1`. -/
theorem c6_scalar_observation (s : GameState) :
    ((0:ℝ) ≤ scalarObservation s ∧ scalarObservation s ≤ 1)
  ∧ (s.unitsOwner 1 ≠ [] → s.unitsOwner 2 ≠ [] →
      scalarObservation s
        = min 1 (Real.sqrt
            ((((centroidQ (s.unitsOwner 2)).1 - (centroidQ (s.unitsOwner 1)).1 : ℚ) : ℝ) ^ 2
              + (((centroidQ (s.unitsOwner 2)).2 - (centroidQ (s.unitsOwner 1)).2 : ℚ) : ℝ) ^ 2)
            / 80))
  ∧ ((s.unitsOwner 1 = [] ∨ s.unitsOwner 2 = []) → scalarObservation s = 1) := by
  refine ⟨?_, ?_, ?_⟩
  · by_cases h : ∃ off, enemy_offset s = some off
    · obtain ⟨off, hoff⟩ := h
      rw [scalarObservation_of_some s off hoff]
      constructor
      · exact le_min (div_nonneg (Real.sqrt_nonneg _) (by norm_num)) zero_le_one
      · exact min_le_right _ _
    · have hnone : enemy_offset s = none := by
        cases hoff : enemy_offset s with
        | none => rfl
        | some off => exact absurd ⟨off, hoff⟩ h
      rw [scalarObservation_of_none s hnone]
      norm_num
  · intro h1 h2
    rw [scalarObservation_of_some s _ (enemy_offset_of_nonempty s h1 h2), min_comm]
  · intro h
    exact scalarObservation_of_none s (enemy_offset_of_empty s h)

/-- Witness for C6: with the agent centroid at the origin and the
opponent centroid at `(6, 8)` the observation is `10/80 = 1/8`. -/
theorem c6_witness : scalarObservation exTwoSides = 1/8 := by
  have h := (c6_scalar_observation exTwoSides).2.1
    (by norm_num [GameState.unitsOwner, exTwoSides])
    (by norm_num [GameState.unitsOwner, exTwoSides])
  rw [h]
  have e1 : ((centroidQ (exTwoSides.unitsOwner 2)).1
      - (centroidQ (exTwoSides.unitsOwner 1)).1 : ℚ) = 6 := by
    norm_num [centroidQ, GameState.unitsOwner, exTwoSides]
  have e2 : ((centroidQ (exTwoSides.unitsOwner 2)).2
      - (centroidQ (exTwoSides.unitsOwner 1)).2 : ℚ) = 8 := by
    norm_num [centroidQ, GameState.unitsOwner, exTwoSides]
  rw [e1, e2]
  have hsq : ((6:ℚ):ℝ) ^ 2 + ((8:ℚ):ℝ) ^ 2 = 10 ^ 2 := by
    push_cast
    norm_num
  rw [hsq, Real.sqrt_sq (by norm_num : (0:ℝ) ≤ 10)]
  rw [min_eq_right (by norm_num : (10:ℝ)/80 ≤ 1)]
  norm_num

/-- Claim C8: with no agent units, every move action (index other
than 8) resolves to a walk command over the empty unit list whose two
destination coordinates are NaN (`none`): the undefined empty-set
centroid propagates into the issued command instead of a defined
NaN-free fallback. -/
theorem c8_empty_agent_nan_command (s : GameState) (h : s.unitsOwner 1 = [])
    (i : ℕ) (hi : i ≠ 8) :
    resolve_action s i = some (GameCommand.walk [] none none) := by
  unfold resolve_action moveCmd
  rw [if_neg hi, h]
  rfl

/-- Witness for C8: the concrete no-agent snapshot, action index 0. -/
theorem c8_witness : resolve_action exNoAgent 0 = some (GameCommand.walk [] none none) :=
  c8_empty_agent_nan_command exNoAgent rfl 0 (by norm_num)

/-- One grid write, expressed through the `writesCell` predicate. -/
lemma gridStep_apply (minX maxX minZ maxZ : ℚ) (g : ℤ → ℤ → ℕ → ℚ) (u : GameUnit)
    (x z : ℤ) (ch : ℕ) :
    gridStep minX maxX minZ maxZ g u x z ch
      = if writesCell minX maxX minZ maxZ u x z ch then 1 else g x z ch := by
  unfold gridStep writesCell
  by_cases hw : minX < u.posX ∧ u.posX < maxX ∧ minZ < u.posZ ∧ u.posZ < maxZ
  · rw [if_pos hw]
    by_cases hc : x = pyInt (u.posX - minX) ∧ z = pyInt (u.posZ - minZ) ∧ ch = u.owner
    · rw [if_pos hc, if_pos ⟨hw, hc⟩]
    · rw [if_neg hc, if_neg (fun hh => hc hh.2)]
  · rw [if_neg hw, if_neg (fun hh => hw hh.1)]

/-- The grid write loop: since every write stores a `1`, the final
cell value is `1` exactly when some unit of the list writes that cell,
and the initial value otherwise. -/
lemma foldl_gridStep (minX maxX minZ maxZ : ℚ) (l : List GameUnit)
    (g : ℤ → ℤ → ℕ → ℚ) (x z : ℤ) (ch : ℕ) :
    (l.foldl (gridStep minX maxX minZ maxZ) g) x z ch
      = if ∃ u ∈ l, writesCell minX maxX minZ maxZ u x z ch then 1 else g x z ch := by
  induction l generalizing g with
  | nil => simp
  | cons u us ih =>
      rw [List.foldl_cons, ih]
      by_cases hus : ∃ v ∈ us, writesCell minX maxX minZ maxZ v x z ch
      · rw [if_pos hus,
          if_pos (by obtain ⟨v, hv, hw⟩ := hus; exact ⟨v, List.mem_cons_of_mem u hv, hw⟩)]
      · rw [if_neg hus, gridStep_apply]
        by_cases hu : writesCell minX maxX minZ maxZ u x z ch
        · rw [if_pos hu, if_pos ⟨u, List.mem_cons_self u us, hu⟩]
        · rw [if_neg hu, if_neg ?hno]
          case hno =>
            rintro ⟨v, hv, hw⟩
            rcases List.mem_cons.mp hv with h | h
            · exact hu (h ▸ hw)
            · exact hus ⟨v, h, hw⟩

/-- The integer index a strictly-inside position truncates to lies in
`[0, 84)`. -/
lemma pyInt_window (q : ℚ) (h0 : 0 < q) (h84 : q < 84) : 0 ≤ pyInt q ∧ pyInt q < 84 := by
  unfold pyInt
  rw [if_pos (le_of_lt h0)]
  constructor
  · exact Int.floor_nonneg.mpr (le_of_lt h0)
  · exact Int.floor_lt.mpr (by exact_mod_cast h84)

/-- Claim C7: the occupancy grid only holds cell values 0 and 1; a
cell `(x, z, ch)` holds `1` only if some unit with owner `ch` lies
strictly inside the 84x84 window centred on the agent centroid and its
window-relative position truncates to `(x, z)`; nonzero cells only
occur at indices inside `[0,84) x [0,84)` and (for snapshots whose
owners are all below 3) channels below 3, matching the 84x84x3 shape;
and with no agent units the grid is identically zero. -/
theorem c7_grid_observation (s : GameState) :
    (∀ x z ch, observationGrid s x z ch = 0 ∨ observationGrid s x z ch = 1)
  ∧ (∀ x z ch, observationGrid s x z ch = 1 →
      ∃ c, center (s.unitsOwner 1) = some c ∧
        ∃ u ∈ s.units, u.owner = ch
          ∧ c.1 - 42 < u.posX ∧ u.posX < c.1 + 42
          ∧ c.2 - 42 < u.posZ ∧ u.posZ < c.2 + 42
          ∧ x = pyInt (u.posX - (c.1 - 42)) ∧ z = pyInt (u.posZ - (c.2 - 42)))
  ∧ (∀ x z ch, observationGrid s x z ch ≠ 0 → 0 ≤ x ∧ x < 84 ∧ 0 ≤ z ∧ z < 84)
  ∧ ((∀ u ∈ s.units, u.owner < 3) → ∀ x z ch, observationGrid s x z ch ≠ 0 → ch < 3)
  ∧ (s.unitsOwner 1 = [] → ∀ x z ch, observationGrid s x z ch = 0) := by
  cases hcen : center (s.unitsOwner 1) with
  | none =>
      have hobs : observationGrid s = fun _ _ _ => 0 := by
        unfold observationGrid
        rw [hcen]
      refine ⟨?_, ?_, ?_, ?_, ?_⟩ <;> simp [hobs]
  | some c =>
      have hg : observationGrid s
          = s.units.foldl (gridStep (c.1 - 42) (c.1 + 42) (c.2 - 42) (c.2 + 42))
              (fun _ _ _ => 0) := by
        unfold observationGrid
        rw [hcen]
      have hobs : ∀ x z ch, observationGrid s x z ch
          = if ∃ u ∈ s.units, writesCell (c.1 - 42) (c.1 + 42) (c.2 - 42) (c.2 + 42) u x z ch
            then 1 else 0 := by
        intro x z ch
        rw [hg, foldl_gridStep]
      refine ⟨?_, ?_, ?_, ?_, ?_⟩
      · intro x z ch
        rw [hobs]
        split
        · exact Or.inr rfl
        · exact Or.inl rfl
      · intro x z ch h1
        rw [hobs] at h1
        by_cases he : ∃ u ∈ s.units,
            writesCell (c.1 - 42) (c.1 + 42) (c.2 - 42) (c.2 + 42) u x z ch
        · obtain ⟨u, hu, ⟨w1, w2, w3, w4⟩, e1, e2, e3⟩ := he
          exact ⟨c, rfl, u, hu, e3.symm, w1, w2, w3, w4, e1, e2⟩
        · rw [if_neg he] at h1
          norm_num at h1
      · intro x z ch h0
        rw [hobs] at h0
        by_cases he : ∃ u ∈ s.units,
            writesCell (c.1 - 42) (c.1 + 42) (c.2 - 42) (c.2 + 42) u x z ch
        · obtain ⟨u, hu, ⟨w1, w2, w3, w4⟩, e1, e2, e3⟩ := he
          have hx := pyInt_window (u.posX - (c.1 - 42)) (by linarith) (by linarith)
          have hz := pyInt_window (u.posZ - (c.2 - 42)) (by linarith) (by linarith)
          exact ⟨e1 ▸ hx.1, e1 ▸ hx.2, e2 ▸ hz.1, e2 ▸ hz.2⟩
        · rw [if_neg he] at h0
          exact absurd rfl h0
      · intro hWF x z ch h0
        rw [hobs] at h0
        by_cases he : ∃ u ∈ s.units,
            writesCell (c.1 - 42) (c.1 + 42) (c.2 - 42) (c.2 + 42) u x z ch
        · obtain ⟨u, hu, hw⟩ := he
          exact hw.2.2.2 ▸ hWF u hu
        · rw [if_neg he] at h0
          exact absurd rfl h0
      · intro hempty
        rw [hempty] at hcen
        simp [center] at hcen

/-- Witness for C7: on the concrete snapshot the cell `(52, 47, 2)`
holds a `1`, and the theorem recovers the opponent unit that wrote
it. -/
theorem c7_witness :
    ∃ c, center (exGridState.unitsOwner 1) = some c ∧
      ∃ u ∈ exGridState.units, u.owner = 2
        ∧ c.1 - 42 < u.posX ∧ u.posX < c.1 + 42
        ∧ c.2 - 42 < u.posZ ∧ u.posZ < c.2 + 42
        ∧ 52 = pyInt (u.posX - (c.1 - 42)) ∧ 47 = pyInt (u.posZ - (c.2 - 42)) :=
  (c7_grid_observation exGridState).2.1 52 47 2
    (by norm_num [observationGrid, center, centroidQ, GameState.unitsOwner, exGridState,
      gridStep, pyInt])

/-- Claim C9: the caution factor starts at 10; after any sequence of
advancement checks it is 10 or 5; it is 5 exactly when some
advancement has happened and the level exceeds 5 (i.e. from the first
advancement that makes the level exceed 5 onwards); and extending the
call sequence never increases it. -/
theorem c9_caution_factor (L0 : ℤ) (ms : List ℚ) :
    (initCurriculum L0).caution_factor = 10
  ∧ (((initCurriculum L0).run ms).caution_factor = 10
      ∨ ((initCurriculum L0).run ms).caution_factor = 5)
  ∧ (((initCurriculum L0).run ms).caution_factor = 5 ↔
      (L0 < ((initCurriculum L0).run ms).level ∧ 5 < ((initCurriculum L0).run ms).level))
  ∧ ∀ ms2, ((initCurriculum L0).run (ms ++ ms2)).caution_factor
      ≤ ((initCurriculum L0).run ms).caution_factor := by
  obtain ⟨hle, hcf⟩ := cautionInv_run L0 ms _ (cautionInv_init L0)
  refine ⟨rfl, ?_, ?_, ?_⟩
  · rw [hcf]
    split
    · exact Or.inr rfl
    · exact Or.inl rfl
  · rw [hcf]
    constructor
    · intro h5
      by_cases hcond : L0 < ((initCurriculum L0).run ms).level
          ∧ 5 < ((initCurriculum L0).run ms).level
      · exact hcond
      · rw [if_neg hcond] at h5
        norm_num at h5
    · intro hcond
      rw [if_pos hcond]
  · intro ms2
    rw [run_append]
    obtain ⟨hle2, hcf2⟩ :=
      cautionInv_run L0 ms2 _ (cautionInv_run L0 ms _ (cautionInv_init L0))
    rw [hcf2, hcf]
    have hlvl := run_level_mono ms2 ((initCurriculum L0).run ms)
    by_cases hcond : L0 < ((initCurriculum L0).run ms).level
        ∧ 5 < ((initCurriculum L0).run ms).level
    · rw [if_pos hcond, if_pos ⟨by omega, by omega⟩]
    · rw [if_neg hcond]
      split
      · norm_num
      · exact le_refl _
